import Mathlib

/-!
Verification of the `Blockly.Field` core (src/core/field.js).

The file shallowly embeds the data model and operations of the abstract
field class: the value/text store (`setValue`, `setText`, `getValue`,
`getText`), the validator chain (`classValidator`, `callValidator`),
text-node rendering (`updateTextNode_`), width computation and the
module-wide width cache (`render_`, `getSize`, `startCache`, `stopCache`),
visibility (`setVisible`), block binding (`setSourceBlock`, `dispose`) and
click-target selection (`getClickTarget_`).

JavaScript values that flow through the setters are modelled by `JSVal`:
the fragment with `null`, strings, and integer-valued numbers, which is
the fragment the field code exercises.  Loose (type-coercing) equality
`==` is modelled by `jsLooseEq`; string-to-number coercion models decimal
integer literals with an optional sign and surrounding whitespace.
-/

namespace Blockly

/-- Decimal digit to character.  Only ever applied to values below ten. -/
def digitChar : Nat → Char
  | 0 => '0'
  | 1 => '1'
  | 2 => '2'
  | 3 => '3'
  | 4 => '4'
  | 5 => '5'
  | 6 => '6'
  | 7 => '7'
  | 8 => '8'
  | _ => '9'

/-- Character to decimal digit, `none` for non-digit characters. -/
def charDigit (c : Char) : Option Nat :=
  if 48 ≤ c.toNat ∧ c.toNat ≤ 57 then some (c.toNat - 48) else none

/-- Little-endian decimal digits of `n`; `fuel` bounds the recursion. -/
def natToRevDigits : Nat → Nat → List Nat
  | 0, _ => []
  | fuel + 1, n => if n = 0 then [] else n % 10 :: natToRevDigits fuel (n / 10)

/-- Value of a little-endian digit list. -/
def ofRevDigits : List Nat → Nat
  | [] => 0
  | d :: ds => d + 10 * ofRevDigits ds

/-- Parse a little-endian character list as a natural number. -/
def parseRevNat : List Char → Option Nat
  | [] => some 0
  | c :: cs =>
    match charDigit c, parseRevNat cs with
    | some d, some r => some (d + 10 * r)
    | _, _ => none

/-- Decimal character representation of a natural number (big-endian). -/
def natChars (n : Nat) : List Char :=
  if n = 0 then ['0'] else ((natToRevDigits n n).map digitChar).reverse

/-- Models the JavaScript number-to-string conversion for integers. -/
def intStr (n : Int) : String :=
  if n < 0 then String.mk ('-' :: natChars n.natAbs) else String.mk (natChars n.natAbs)

/-- Models the character class of the JavaScript regular expression
whitespace `\s` (also the whitespace trimmed by `ToNumber`). -/
def isJsWs (c : Char) : Bool :=
  c == ' ' || c == '\t' || c == '\n' || c == '\x0b' || c == '\x0c' || c == '\r' ||
  c == '\u00A0' || c == '\u1680' ||
  (decide (0x2000 ≤ c.toNat) && decide (c.toNat ≤ 0x200A)) ||
  c == '\u2028' || c == '\u2029' || c == '\u202F' || c == '\u205F' ||
  c == '\u3000' || c == '\uFEFF'

/-- Strip whitespace from both ends of a character list. -/
def trimWs (l : List Char) : List Char :=
  ((l.dropWhile isJsWs).reverse.dropWhile isJsWs).reverse

/-- Models JavaScript `ToNumber` on strings, restricted to the decimal
integer fragment: surrounding whitespace is ignored, the empty string is
zero, an optional sign precedes the digits, anything else is `none`
(not a number). -/
def jsToNumberChars (t : List Char) : Option Int :=
  if t = [] then some 0
  else if t.head? = some '-' then
    (if t.tail = [] then none else
      match parseRevNat t.tail.reverse with
      | some m => some (-(m : Int))
      | none => none)
  else if t.head? = some '+' then
    (if t.tail = [] then none else
      match parseRevNat t.tail.reverse with
      | some m => some ((m : Int))
      | none => none)
  else
    match parseRevNat t.reverse with
    | some m => some ((m : Int))
    | none => none

def jsToNumber (s : String) : Option Int :=
  jsToNumberChars (trimWs s.data)

theorem ofRevDigits_natToRevDigits : ∀ fuel n : Nat, n ≤ fuel →
    ofRevDigits (natToRevDigits fuel n) = n := by
  intro fuel
  induction fuel with
  | zero =>
    intro n h
    simp only [natToRevDigits, ofRevDigits]
    omega
  | succ f ih =>
    intro n h
    by_cases h0 : n = 0
    · subst h0; simp [natToRevDigits, ofRevDigits]
    · have hlt : n / 10 < n := Nat.div_lt_self (Nat.pos_of_ne_zero h0) (by norm_num)
      have hle : n / 10 ≤ f := by omega
      simp only [natToRevDigits, h0, if_false, ofRevDigits, ih _ hle]
      omega

theorem natToRevDigits_lt_ten : ∀ fuel n d : Nat, d ∈ natToRevDigits fuel n → d < 10 := by
  intro fuel
  induction fuel with
  | zero => intro n d h; simp [natToRevDigits] at h
  | succ f ih =>
    intro n d h
    by_cases h0 : n = 0
    · simp [natToRevDigits, h0] at h
    · simp only [natToRevDigits, h0, if_false, List.mem_cons] at h
      rcases h with h | h
      · omega
      · exact ih _ _ h

theorem parseRevNat_map_digitChar : ∀ l : List Nat, (∀ d ∈ l, d < 10) →
    parseRevNat (l.map digitChar) = some (ofRevDigits l) := by
  intro l
  induction l with
  | nil => intro _; rfl
  | cons d ds ih =>
    intro h
    have hd : d < 10 := h d (List.mem_cons_self d ds)
    have hcd : charDigit (digitChar d) = some d := by interval_cases d <;> decide
    simp only [List.map_cons, parseRevNat, hcd, ih (fun e he => h e (List.mem_cons_of_mem _ he)),
      ofRevDigits]

theorem natChars_digit (m : Nat) : ∀ c ∈ natChars m, ∃ d, d < 10 ∧ c = digitChar d := by
  intro c hc
  unfold natChars at hc
  by_cases h0 : m = 0
  · simp only [h0, if_true] at hc
    simp at hc
    exact ⟨0, by norm_num, by simp [hc, digitChar]⟩
  · simp only [h0, if_false, List.mem_reverse, List.mem_map] at hc
    obtain ⟨d, hd, rfl⟩ := hc
    exact ⟨d, natToRevDigits_lt_ten m m d hd, rfl⟩

theorem natChars_not_ws (m : Nat) : ∀ c ∈ natChars m, isJsWs c = false := by
  intro c hc
  obtain ⟨d, hd, rfl⟩ := natChars_digit m c hc
  interval_cases d <;> decide

theorem natChars_not_sign (m : Nat) : ∀ c ∈ natChars m, c ≠ '-' ∧ c ≠ '+' := by
  intro c hc
  obtain ⟨d, hd, rfl⟩ := natChars_digit m c hc
  interval_cases d <;> exact ⟨by decide, by decide⟩

theorem natChars_ne_nil (n : Nat) : natChars n ≠ [] := by
  unfold natChars
  by_cases h0 : n = 0
  · simp [h0]
  · obtain ⟨k, rfl⟩ := Nat.exists_eq_succ_of_ne_zero h0
    simp [natToRevDigits]

theorem dropWhile_eq_self_of_not {p : Char → Bool} :
    ∀ l : List Char, (∀ c ∈ l, p c = false) → l.dropWhile p = l := by
  intro l h
  cases l with
  | nil => rfl
  | cons a as => simp [List.dropWhile_cons, h a (List.mem_cons_self a as)]

theorem trimWs_eq_self (l : List Char) (h : ∀ c ∈ l, isJsWs c = false) : trimWs l = l := by
  unfold trimWs
  rw [dropWhile_eq_self_of_not l h,
    dropWhile_eq_self_of_not l.reverse (fun c hc => h c (List.mem_reverse.mp hc)),
    List.reverse_reverse]

theorem parseRevNat_natChars (m : Nat) : parseRevNat (natChars m).reverse = some m := by
  by_cases h0 : m = 0
  · subst h0; decide
  · unfold natChars
    simp only [h0, if_false, List.reverse_reverse]
    rw [parseRevNat_map_digitChar _ (fun d hd => natToRevDigits_lt_ten m m d hd),
      ofRevDigits_natToRevDigits m m le_rfl]

/-- Printing an integer and converting the string back to a number is the
identity; this is what makes a freshly stored text loosely equal to the
value it came from. -/
theorem jsToNumber_intStr (n : Int) : jsToNumber (intStr n) = some n := by
  by_cases hneg : n < 0
  · have hdata : (intStr n).data = '-' :: natChars n.natAbs := by
      unfold intStr; simp [hneg]
    have hws : ∀ c ∈ '-' :: natChars n.natAbs, isJsWs c = false := by
      intro c hc
      rcases List.mem_cons.mp hc with rfl | hc
      · decide
      · exact natChars_not_ws _ c hc
    unfold jsToNumber
    rw [hdata, trimWs_eq_self _ hws]
    unfold jsToNumberChars
    rw [if_neg (by simp), if_pos (by simp)]
    rw [if_neg (by simpa using natChars_ne_nil n.natAbs)]
    simp only [List.tail_cons, parseRevNat_natChars, Option.some.injEq]
    omega
  · have hdata : (intStr n).data = natChars n.natAbs := by
      unfold intStr; simp [hneg]
    have hne := natChars_ne_nil n.natAbs
    obtain ⟨c, cs, hcons⟩ := List.exists_cons_of_ne_nil hne
    have hcmem : c ∈ natChars n.natAbs := by rw [hcons]; exact List.mem_cons_self c cs
    have hsign := natChars_not_sign _ c hcmem
    unfold jsToNumber
    rw [hdata, trimWs_eq_self _ (natChars_not_ws _)]
    unfold jsToNumberChars
    rw [if_neg hne]
    rw [if_neg (by rw [hcons]; simp [hsign.1]), if_neg (by rw [hcons]; simp [hsign.2])]
    rw [parseRevNat_natChars]
    simp only [Option.some.injEq]
    omega

/-- The fragment of JavaScript values handled by the field setters:
the `null` sentinel, strings, and (integer-valued) numbers. -/
inductive JSVal where
  | null : JSVal
  | str : String → JSVal
  | num : Int → JSVal
  deriving DecidableEq, Repr

/-- JavaScript `String(v)` conversion on the modelled fragment. -/
def jsToString : JSVal → String
  | .null => "null"
  | .str s => s
  | .num n => intStr n

/-- JavaScript loose (type-coercing) equality `==` on the modelled
fragment: `null` equals only `null`; a string and a number compare equal
when the string converts to that number. -/
def jsLooseEq : JSVal → JSVal → Bool
  | .null, .null => true
  | .str a, .str b => a == b
  | .num a, .num b => a == b
  | .str a, .num b => jsToNumber a == some b
  | .num a, .str b => jsToNumber b == some a
  | .null, _ => false
  | _, .null => false

/-- The string a non-null value coerces to is loosely equal to the value. -/
theorem jsLooseEq_str_jsToString (x : JSVal) (hx : x ≠ .null) :
    jsLooseEq (.str (jsToString x)) x = true := by
  cases x with
  | null => exact absurd rfl hx
  | str s => simp [jsLooseEq, jsToString]
  | num n => simp [jsLooseEq, jsToString, jsToNumber_intStr]

/-- If a non-null value is not loosely equal to a string, its string
coercion is a different string. -/
theorem jsToString_ne_of_not_jsLooseEq (x : JSVal) (s : String) (hx : x ≠ .null)
    (h : jsLooseEq (.str s) x = false) : jsToString x ≠ s := by
  intro heq
  cases x with
  | null => exact absurd rfl hx
  | str t =>
    rw [jsToString] at heq
    rw [jsLooseEq] at h
    simp [heq] at h
  | num n =>
    rw [jsToString] at heq
    rw [jsLooseEq] at h
    rw [← heq] at h
    simp [jsToNumber_intStr] at h

/-- Non-breaking space (`Blockly.Field.NBSP`, a one-character string in the
source; the whitespace regular expression replaces characters one for one,
so a character model suffices). -/
def NBSP : Char := '\u00A0'

/-- Horizontal ellipsis appended when a displayed text is truncated. -/
def ELLIPSIS : Char := '\u2026'

/-- Right-to-left mark appended to non-empty text on RTL blocks. -/
def RLM : Char := '\u200F'

/-- Whitespace-to-non-breaking-space substitution of `updateTextNode_`
(`text.replace(/\s/g, Blockly.Field.NBSP)`). -/
def substChar (c : Char) : Char :=
  if isJsWs c then NBSP else c

def substJsWs (s : String) : String :=
  String.mk (s.data.map substChar)

/-- An input slot of a block; only its row of fields matters here, and of
that row only the count, so fields in the row are opaque references. -/
structure Input where
  fieldRow : List Nat
  deriving DecidableEq, Repr

/-- The owning block, reduced to the collaborator surface `Field` uses:
writing direction, rendered state, shadow classification and input slots. -/
structure Block where
  RTL : Bool := false
  rendered : Bool := false
  shadow : Bool := false
  inputList : List Input := []
  deriving DecidableEq, Repr

def Block.isShadow (b : Block) : Bool := b.shadow

/-- The SVG `text` element owned by the field: its text content, its
`class` attribute and its `x` attribute. -/
structure TextElement where
  content : String := ""
  className : String := "blocklyText"
  x : ℚ := 0
  deriving DecidableEq, Repr

/-- The field group element; only its display style is observable here. -/
structure GroupEl where
  display : String := ""
  deriving DecidableEq, Repr

/-- An optional drawn box behind the field, with its width and height
attributes. -/
structure BoxEl where
  width : ℚ := 0
  height : ℚ := 0
  deriving DecidableEq, Repr

/-- A `goog.math.Size`: width and height. -/
structure Size where
  width : ℚ := 0
  height : ℚ := 0
  deriving DecidableEq, Repr

/-- Result of a validator call in JavaScript: `null` (reject),
`undefined` (keep the text), or a replacement string. -/
inductive ValidatorResult where
  | vnull : ValidatorResult
  | vundef : ValidatorResult
  | vstr : String → ValidatorResult
  deriving DecidableEq, Repr

/-- Payload of `Blockly.Events.Change(block, 'field', name, oldValue,
newValue)` as fired by `setValue`. -/
structure ChangeEvent where
  block : Block
  element : String
  name : Option String
  oldValue : String
  newValue : JSVal
  deriving DecidableEq, Repr

/-- Observable actions of a setter call, in execution order: firing a
change event, storing the new text, and asking the source block to
re-render and bump its neighbours. -/
inductive Action where
  | fireChange : ChangeEvent → Action
  | storeText : String → Action
  | blockRender : Action
  | bumpNeighbours : Action
  deriving DecidableEq, Repr

def Action.isFire : Action → Bool
  | .fireChange _ => true
  | _ => false

/-- External constants and services: the `Blockly.BlockSvg` layout
constants and the text measurement of the rendering surface
(`getComputedTextLength`; `none` models the MSIE measurement throw). -/
structure Env where
  EDITABLE_FIELD_PADDING : ℚ := 0
  BOX_FIELD_PADDING : ℚ := 0
  FIELD_WIDTH : ℚ := 0
  FIELD_HEIGHT : ℚ := 0
  MAX_DISPLAY_LENGTH : Nat := 0
  measure : String → String → Option ℚ := fun _ _ => none

/-- The module-wide width-cache state: `Blockly.Field.cacheWidths_` (an
association list keyed by text plus class, newest entry first, matching
object-property overwrite) and `Blockly.Field.cacheReference_`. -/
structure CacheState where
  cacheWidths_ : Option (List (String × ℚ)) := none
  cacheReference_ : Int := 0

/-- The abstract editable field.  Fields follow src/core/field.js:
prototype defaults are the structure defaults; `classValidator` is the
subclass hook whose base implementation returns its argument unchanged
(lines 285 to 287); `positionArrow` is the optional subclass hook queried
by `render_` for the drop-down arrow width. -/
structure Field where
  name : Option String := none
  text_ : String := ""
  sourceBlock_ : Option Block := none
  visible_ : Bool := true
  argType_ : Option (List String) := none
  validator_ : Option (String → ValidatorResult) := none
  classValidator : String → ValidatorResult := fun text => .vstr text
  EDITABLE : Bool := true
  maxDisplayLength : Nat := 0
  size_ : Size := {}
  fieldGroup_ : Option GroupEl := none
  textElement_ : Option TextElement := none
  positionArrow : Option (ℚ → ℚ) := none
  box_ : Option BoxEl := none

/-- Writing direction of the owning block.  `updateTextNode_` and
`render_` read `this.sourceBlock_.RTL` unconditionally; they are only
reachable with a text element, which only `init` creates, and `init`
dereferences the source block itself, so an unbound field never gets
here.  The unbound default is `false`. -/
def Field.rtl (f : Field) : Bool :=
  match f.sourceBlock_ with
  | some b => b.RTL
  | none => false

def Field.isShadowBlock (f : Field) : Bool :=
  match f.sourceBlock_ with
  | some b => b.isShadow
  | none => false

/-- Line 448: `getText` returns the stored text. -/
def Field.getText (f : Field) : String := f.text_

/-- Line 517: in the base class `getValue` is `getText`. -/
def Field.getValue (f : Field) : String := f.getText

/-- Lines 221 to 223. -/
def Field.isVisible (f : Field) : Bool := f.visible_

/-- Lines 268 to 270. -/
def Field.setValidator (f : Field) (handler : Option (String → ValidatorResult)) : Field :=
  { f with validator_ := handler }

/-- Lines 276 to 278. -/
def Field.getValidator (f : Field) : Option (String → ValidatorResult) := f.validator_

/-- Lines 245 to 250: `addArgType` appends to the argType array, creating
it first if absent. -/
def Field.addArgType (f : Field) (argType : String) : Field :=
  match f.argType_ with
  | none => { f with argType_ := some [argType] }
  | some l => { f with argType_ := some (l ++ [argType]) }

/-- Lines 256 to 262. -/
def Field.getArgTypes (f : Field) : Option String :=
  match f.argType_ with
  | none => none
  | some [] => none
  | some l => some (String.intercalate " " l)

/-- Lines 134 to 137: `setSourceBlock` asserts the field is unbound
(`goog.asserts.assert(!this.sourceBlock_, ...)`), then stores the block.
The error component models the assertion throw, which happens before the
assignment, so the field is returned unchanged in that case. -/
def Field.setSourceBlock (f : Field) (block : Block) : Except String Unit × Field :=
  if f.sourceBlock_.isSome then
    (.error "Field already bound to a block.", f)
  else
    (.ok (), { f with sourceBlock_ := some block })

/-- Lines 186 to 196: `dispose` unbinds the mouse handler, clears the
block back-reference, removes and clears the display nodes, and clears
the validator. -/
def Field.dispose (f : Field) : Field :=
  { f with sourceBlock_ := none, fieldGroup_ := none, textElement_ := none,
           validator_ := none }

/-- Lines 295 to 314: `callValidator` runs the class validator, then,
unless that rejected, the user validator, each with
null-rejects / undefined-keeps / other-replaces semantics. -/
def Field.callValidator (f : Field) (text : String) : Option String :=
  match f.classValidator text with
  | .vnull => none
  | classResult =>
    let text1 := match classResult with
      | .vstr s => s
      | _ => text
    match f.getValidator with
    | none => some text1
    | some userValidator =>
      match userValidator text1 with
      | .vnull => none
      | .vundef => some text1
      | .vstr s => some s

/-- Lines 479 to 510: `updateTextNode_` rebuilds the text node content
from the stored text: truncation with an ellipsis and the truncated style
class beyond `maxDisplayLength`, whitespace to non-breaking spaces, an
RTL mark on RTL blocks, a single non-breaking space when empty, and
invalidation of the cached width. -/
def Field.updateTextNode_ (f : Field) : Field :=
  match f.textElement_ with
  | none => f
  | some te =>
    let chars := f.text_.data
    let chars1 := if f.maxDisplayLength < f.text_.length
      then chars.take (f.maxDisplayLength - 2) ++ [ELLIPSIS] else chars
    let cls := if f.maxDisplayLength < f.text_.length
      then "blocklyText blocklyTextTruncated" else "blocklyText"
    let chars2 := chars1.map substChar
    let chars3 := if f.rtl ∧ chars2 ≠ [] then chars2 ++ [RLM] else chars2
    let chars4 := if chars3 = [] then [NBSP] else chars3
    { f with textElement_ := some { te with content := String.mk chars4, className := cls },
             size_ := { f.size_ with width := 0 } }

/-- Lines 456 to 473: `setText` is a no-op on `null`, coerces to string,
is a no-op when the coerced text equals the stored text, and otherwise
stores the text, refreshes the text node, and re-renders the source block
when that block is in rendered state. -/
def Field.setText (f : Field) (text : JSVal) : Field × List Action :=
  match text with
  | .null => (f, [])
  | _ =>
    let s := jsToString text
    if s = f.text_ then (f, [])
    else
      let f1 := Field.updateTextNode_ { f with text_ := s }
      let rerender : Bool := match f1.sourceBlock_ with
        | some b => b.rendered
        | none => false
      (f1, if rerender then [.storeText s, .blockRender, .bumpNeighbours] else [.storeText s])

/-- Lines 526 to 540: `setValue` is a no-op on `null` and on loose
equality with the current value; otherwise it fires a change event first
(when the global event gate is on and the field is bound) and then
delegates to `setText`. -/
def Field.setValue (f : Field) (eventsEnabled : Bool) (newText : JSVal) : Field × List Action :=
  match newText with
  | .null => (f, [])
  | _ =>
    let oldText := f.getValue
    if jsLooseEq (.str oldText) newText then (f, [])
    else
      let evs := match f.sourceBlock_ with
        | some b =>
          if eventsEnabled then
            [Action.fireChange { block := b, element := "field", name := f.name,
                                 oldValue := oldText, newValue := newText }]
          else []
        | none => []
      let r := Field.setText f newText
      (r.1, evs ++ r.2)

/-- Lines 590 to 602: `getClickTarget_` counts the fields on all input
slots of the owning block; with at most one field the whole block is the
click target, otherwise the field group is.  Unbound fields are outside
the contract (the source would throw); they yield `none`. -/
inductive ClickTarget where
  | blockRoot : Block → ClickTarget
  | fieldGroup : Option GroupEl → ClickTarget
  deriving DecidableEq, Repr

def Block.nFields (b : Block) : Nat :=
  b.inputList.foldl (fun n input => n + input.fieldRow.length) 0

def Field.getClickTarget_ (f : Field) : Option ClickTarget :=
  match f.sourceBlock_ with
  | none => none
  | some b =>
    if b.nFields ≤ 1 then some (.blockRoot b) else some (.fieldGroup f.fieldGroup_)

/-- Lines 402 to 407: `startCache` increments the reference count and
allocates the cache if absent. -/
def startCache (cs : CacheState) : CacheState :=
  let cs1 := { cs with cacheReference_ := cs.cacheReference_ + 1 }
  if cs1.cacheWidths_.isSome then cs1 else { cs1 with cacheWidths_ := some [] }

/-- Lines 413 to 418: `stopCache` decrements the reference count and
frees the cache when the count is zero (the falsiness test
`!cacheReference_`). -/
def stopCache (cs : CacheState) : CacheState :=
  let cs1 := { cs with cacheReference_ := cs.cacheReference_ - 1 }
  if cs1.cacheReference_ = 0 then { cs1 with cacheWidths_ := none } else cs1

/-- Initial module state (lines 67 and 74). -/
def initCacheState : CacheState := {}

inductive CacheOp where
  | start : CacheOp
  | stop : CacheOp
  deriving DecidableEq, Repr

def runCacheOps (ops : List CacheOp) (cs : CacheState) : CacheState :=
  ops.foldl (fun s op => match op with | .start => startCache s | .stop => stopCache s) cs

/-- Balanced, strictly nested call sequences: with `k` outstanding starts,
a stop only ever matches an outstanding start. -/
def nestedFrom : Int → List CacheOp → Bool
  | _, [] => true
  | k, .start :: rest => nestedFrom (k + 1) rest
  | k, .stop :: rest => decide (0 < k) && nestedFrom (k - 1) rest

/-- Measured pixel width of a text element (lines 337 to 343): the exact
measurement from the rendering surface, or, when measurement throws
(modelled by `none`), eight pixels per character. -/
def measuredWidth (content className : String) (env : Env) : ℚ :=
  match env.measure content className with
  | some w => w
  | none => (content.length : ℚ) * 8

/-- Width pipeline of `render_` (lines 332 to 361), factored out: cache
lookup keyed by content plus class (a zero cached width is falsy and so
re-measured, as in the source truthiness test), measurement with cache
fill, editable padding, drop-down arrow width, box padding.  Returns the
total width, the arrow width and the updated cache. -/
def computeWidth (content className : String) (editable : Bool) (pa : Option (ℚ → ℚ))
    (hasBox : Bool) (cs : CacheState) (env : Env) : ℚ × ℚ × CacheState :=
  let key := content ++ "\n" ++ className
  let cachedHit : Option ℚ := match cs.cacheWidths_ with
    | some m =>
      match m.lookup key with
      | some w => if w = 0 then none else some w
      | none => none
    | none => none
  let mw : ℚ × CacheState := match cachedHit with
    | some w => (w, cs)
    | none =>
      let w := measuredWidth content className env
      (w, match cs.cacheWidths_ with
          | some m => { cs with cacheWidths_ := some ((key, w) :: m) }
          | none => cs)
  let w1 := if editable then mw.1 + env.EDITABLE_FIELD_PADDING else mw.1
  let aw : ℚ × ℚ := match pa with
    | some g => let a := g w1; (a, w1 + a)
    | none => (0, w1)
  let w3 := if hasBox then aw.2 + 2 * env.BOX_FIELD_PADDING else aw.2
  (w3, aw.1, mw.2)

/-- Lines 330 to 396: `render_` computes and stores the field width and
the text-centering `x` attribute when the field is visible and has a text
element, and forces a zero width otherwise; in both cases any drawn box
is resized to the stored size. -/
def Field.render_ (f : Field) (cs : CacheState) (env : Env) : Field × CacheState :=
  match f.textElement_, f.visible_ with
  | some te, true =>
    let r := computeWidth te.content te.className f.EDITABLE f.positionArrow f.box_.isSome cs env
    let width := r.1
    let arrowWidth := r.2.1
    let c0 := (width - arrowWidth) / 2
    let c1 := if f.rtl then c0 + arrowWidth else c0
    let c2 :=
      if f.isShadowBlock && f.positionArrow.isNone then
        if f.rtl then min (width - env.FIELD_WIDTH / 2) c1
        else max (env.FIELD_WIDTH / 2) c1
      else c1
    let f1 := { f with textElement_ := some { te with x := c2 },
                       size_ := { f.size_ with width := width } }
    let f2 := match f1.box_ with
      | some _ => { f1 with box_ := some { width := f1.size_.width, height := f1.size_.height } }
      | none => f1
    (f2, r.2.2)
  | _, _ =>
    let f1 := { f with size_ := { f.size_ with width := 0 } }
    let f2 := match f1.box_ with
      | some _ => { f1 with box_ := some { width := f1.size_.width, height := f1.size_.height } }
      | none => f1
    (f2, cs)

/-- Lines 424 to 429: `getSize` recomputes lazily when the stored width
is the zero (stale) sentinel, then returns the size. -/
def Field.getSize (f : Field) (cs : CacheState) (env : Env) : Size × Field × CacheState :=
  if f.size_.width = 0 then
    let r := Field.render_ f cs env
    (r.1.size_, r.1, r.2)
  else
    (f.size_, f, cs)

/-- Lines 229 to 239: `setVisible` is a no-op when the visibility does
not change; otherwise it stores the flag and, when the field has a root
group, restyles it and re-renders. -/
def Field.setVisible (f : Field) (visible : Bool) (cs : CacheState) (env : Env) :
    Field × CacheState :=
  if f.visible_ = visible then (f, cs)
  else
    let f1 := { f with visible_ := visible }
    match f1.fieldGroup_ with
    | some g =>
      let g2 : GroupEl := { g with display := if visible then "block" else "none" }
      let f2 := { f1 with fieldGroup_ := some g2 }
      Field.render_ f2 cs env
    | none => (f1, cs)

/-- Lines 47 to 60: the constructor sizes the field from the layout
constants, stores the initial value through `setValue` (the text element
does not exist yet, so no rendering happens), installs the optional
validator, and sets the display-length limit.  In the source
`maxDisplayLength` is assigned after the `setValue` call; during that
call the field of the same name is still absent (undefined) and is never
read, because `updateTextNode_` returns early without a text element. -/
def Field.new (env : Env) (eventsEnabled : Bool) (text : JSVal)
    (validator : Option (String → ValidatorResult)) : Field :=
  let f0 : Field := { size_ := { width := env.FIELD_WIDTH, height := env.FIELD_HEIGHT } }
  let f1 := (Field.setValue f0 eventsEnabled text).1
  { Field.setValidator f1 validator with maxDisplayLength := env.MAX_DISPLAY_LENGTH }

/-! Helper lemmas about the operations. -/

theorem updateTextNode_text (f : Field) : (Field.updateTextNode_ f).text_ = f.text_ := by
  rcases hte : f.textElement_ with _ | te <;> simp [Field.updateTextNode_, hte]

theorem updateTextNode_sourceBlock (f : Field) :
    (Field.updateTextNode_ f).sourceBlock_ = f.sourceBlock_ := by
  rcases hte : f.textElement_ with _ | te <;> simp [Field.updateTextNode_, hte]

theorem setText_not_null (f : Field) (x : JSVal) (hx : x ≠ .null) :
    Field.setText f x =
      (if jsToString x = f.text_ then (f, [])
       else
        let f1 := Field.updateTextNode_ { f with text_ := jsToString x }
        let rerender : Bool := match f1.sourceBlock_ with
          | some b => b.rendered
          | none => false
        (f1, if rerender then
              [.storeText (jsToString x), .blockRender, .bumpNeighbours]
             else [.storeText (jsToString x)])) := by
  cases x with
  | null => exact absurd rfl hx
  | str s => rfl
  | num n => rfl

theorem setValue_not_null (f : Field) (en : Bool) (x : JSVal) (hx : x ≠ .null) :
    Field.setValue f en x =
      (if jsLooseEq (.str f.getValue) x then (f, [])
       else
        let evs := match f.sourceBlock_ with
          | some b =>
            if en then
              [Action.fireChange { block := b, element := "field", name := f.name,
                                   oldValue := f.getValue, newValue := x }]
            else []
          | none => []
        let r := Field.setText f x
        (r.1, evs ++ r.2)) := by
  cases x with
  | null => exact absurd rfl hx
  | str s => rfl
  | num n => rfl

/-- The updated field and stored text after a non-null, non-equal `setText`. -/
theorem setText_updates (f : Field) (x : JSVal) (hx : x ≠ .null)
    (hne : jsToString x ≠ f.text_) :
    (Field.setText f x).1 = Field.updateTextNode_ { f with text_ := jsToString x } ∧
    (Field.setText f x).1.text_ = jsToString x := by
  rw [setText_not_null f x hx, if_neg hne]
  exact ⟨rfl, by rw [updateTextNode_text]⟩

/-! Claim theorems. -/

/-- C5: calling `setValue` or `setText` with the null sentinel is an
explicit no-op: the field (text and value included) is unchanged and no
action at all is performed, so no event fires and no render is
triggered. -/
theorem claim_C5_null_setter_noop (f : Field) (eventsEnabled : Bool) :
    Field.setValue f eventsEnabled .null = (f, []) ∧ Field.setText f .null = (f, []) :=
  ⟨rfl, rfl⟩

/-- C6: `setSourceBlock` on an already-bound field fails with the
contract-violation error and leaves the stored block reference unchanged;
on an unbound field it succeeds and stores the reference. -/
theorem claim_C6_bind_exactly_once (f : Field) (b0 b : Block) :
    (f.sourceBlock_ = some b0 →
      Field.setSourceBlock f b = (.error "Field already bound to a block.", f) ∧
      (Field.setSourceBlock f b).2.sourceBlock_ = some b0) ∧
    (f.sourceBlock_ = none →
      Field.setSourceBlock f b = (.ok (), { f with sourceBlock_ := some b })) := by
  constructor
  · intro h
    have hs : f.sourceBlock_.isSome = true := by rw [h]; rfl
    unfold Field.setSourceBlock
    rw [if_pos hs]
    exact ⟨rfl, h⟩
  · intro h
    have hs : ¬ f.sourceBlock_.isSome = true := by rw [h]; simp
    unfold Field.setSourceBlock
    rw [if_neg hs]

def wBlockA : Block := {}

def wBlockB : Block := { RTL := true }

def wBoundField : Field := { sourceBlock_ := some wBlockA }

def wFreeField : Field := {}

theorem claim_C6_witness :
    wBoundField.sourceBlock_ = some wBlockA ∧
    Field.setSourceBlock wBoundField wBlockB =
      (.error "Field already bound to a block.", wBoundField) ∧
    (Field.setSourceBlock wBoundField wBlockB).2.sourceBlock_ = some wBlockA ∧
    wFreeField.sourceBlock_ = none ∧
    Field.setSourceBlock wFreeField wBlockB =
      (.ok (), { wFreeField with sourceBlock_ := some wBlockB }) := by
  refine ⟨rfl, ?_, ?_, rfl, ?_⟩
  · exact ((claim_C6_bind_exactly_once wBoundField wBlockA wBlockB).1 rfl).1
  · exact ((claim_C6_bind_exactly_once wBoundField wBlockA wBlockB).1 rfl).2
  · exact (claim_C6_bind_exactly_once wFreeField wBlockA wBlockB).2 rfl

/-- C10: `dispose` clears the block back-reference, so rebinding a
disposed field always succeeds: the bind-exactly-once assertion checks
only the currently held reference, not binding history. -/
theorem claim_C10_rebind_after_dispose (f : Field) (b : Block) :
    Field.setSourceBlock (Field.dispose f) b =
      (.ok (), { Field.dispose f with sourceBlock_ := some b }) := rfl

/-- C9: for a bound field, `getClickTarget_` returns the block root when
the block has at most one field across all its input slots, and the
field group when it has two or more; the count is a pure function of
the current input list, recomputed at each call. -/
theorem claim_C9_click_target (f : Field) (b : Block) (hb : f.sourceBlock_ = some b) :
    (b.nFields ≤ 1 → Field.getClickTarget_ f = some (.blockRoot b)) ∧
    (1 < b.nFields → Field.getClickTarget_ f = some (.fieldGroup f.fieldGroup_)) := by
  unfold Field.getClickTarget_
  rw [hb]
  constructor
  · intro h
    show (if b.nFields ≤ 1 then some (ClickTarget.blockRoot b)
          else some (ClickTarget.fieldGroup f.fieldGroup_)) = some (ClickTarget.blockRoot b)
    rw [if_pos h]
  · intro h
    show (if b.nFields ≤ 1 then some (ClickTarget.blockRoot b)
          else some (ClickTarget.fieldGroup f.fieldGroup_)) = some (ClickTarget.fieldGroup f.fieldGroup_)
    rw [if_neg (by omega)]

def wBlock1 : Block := { inputList := [{ fieldRow := [0] }] }

def wBlock2 : Block := { inputList := [{ fieldRow := [0] }, { fieldRow := [1] }] }

def wField1 : Field := { sourceBlock_ := some wBlock1 }

def wField2 : Field := { sourceBlock_ := some wBlock2, fieldGroup_ := some {} }

theorem claim_C9_witness :
    wField1.sourceBlock_ = some wBlock1 ∧ wBlock1.nFields ≤ 1 ∧
    Field.getClickTarget_ wField1 = some (.blockRoot wBlock1) ∧
    wField2.sourceBlock_ = some wBlock2 ∧ 1 < wBlock2.nFields ∧
    Field.getClickTarget_ wField2 = some (.fieldGroup wField2.fieldGroup_) := by
  refine ⟨rfl, by decide, ?_, rfl, by decide, ?_⟩
  · exact (claim_C9_click_target wField1 wBlock1 rfl).1 (by decide)
  · exact (claim_C9_click_target wField2 wBlock2 rfl).2 (by decide)

/-- C2: `callValidator` applies the class validator first; a null result
rejects the whole call and the user validator is never consulted (the
result is `none` for every possible user validator); a string result
replaces the text handed to the user validator, an undefined result
keeps it; the user validator result then follows the same
null-rejects / undefined-keeps / other-replaces rule and the final text
(or the rejection) is returned. -/
theorem claim_C2_validator_chain (f : Field) (t : String) :
    (f.classValidator t = .vnull →
      f.callValidator t = none ∧
      ∀ uv, Field.callValidator { f with validator_ := uv } t = none) ∧
    (∀ s, f.classValidator t = .vstr s →
      (f.validator_ = none → f.callValidator t = some s) ∧
      (∀ v, f.validator_ = some v →
        f.callValidator t =
          (match v s with
           | .vnull => none
           | .vundef => some s
           | .vstr u => some u))) ∧
    (f.classValidator t = .vundef →
      (f.validator_ = none → f.callValidator t = some t) ∧
      (∀ v, f.validator_ = some v →
        f.callValidator t =
          (match v t with
           | .vnull => none
           | .vundef => some t
           | .vstr u => some u))) := by
  refine ⟨fun h => ⟨?_, fun uv => ?_⟩, fun s h => ⟨fun hv => ?_, fun v hv => ?_⟩,
    fun h => ⟨fun hv => ?_, fun v hv => ?_⟩⟩
  · unfold Field.callValidator
    rw [h]
  · unfold Field.callValidator
    rw [show ({ f with validator_ := uv } : Field).classValidator = f.classValidator from rfl, h]
  · unfold Field.callValidator Field.getValidator
    rw [h, hv]
  · unfold Field.callValidator Field.getValidator
    rw [h, hv]
  · unfold Field.callValidator Field.getValidator
    rw [h, hv]
  · unfold Field.callValidator Field.getValidator
    rw [h, hv]

def wRejectingField : Field := { classValidator := fun _ => .vnull }

def wSpyValidator : Option (String → ValidatorResult) := some fun _ => .vstr "SPY"

theorem claim_C2_witness :
    wRejectingField.classValidator "abc" = .vnull ∧
    wRejectingField.callValidator "abc" = none ∧
    Field.callValidator { wRejectingField with validator_ := wSpyValidator } "abc" = none := by
  refine ⟨rfl, ?_, ?_⟩
  · exact ((claim_C2_validator_chain wRejectingField "abc").1 rfl).1
  · exact ((claim_C2_validator_chain wRejectingField "abc").1 rfl).2 wSpyValidator

/-- The cache invariant: starting from a state with a non-negative
reference count in which the cache exists exactly when the count is
positive, any balanced, strictly nested operation sequence preserves
that correspondence. -/
theorem runCacheOps_inv : ∀ (ops : List CacheOp) (cs : CacheState),
    0 ≤ cs.cacheReference_ →
    (cs.cacheWidths_.isSome = true ↔ 0 < cs.cacheReference_) →
    nestedFrom cs.cacheReference_ ops = true →
    ((runCacheOps ops cs).cacheWidths_.isSome = true ↔
      0 < (runCacheOps ops cs).cacheReference_) := by
  intro ops
  induction ops with
  | nil => intro cs _ hiff _; exact hiff
  | cons op rest ih =>
    intro cs h0 hiff hnest
    cases op with
    | start =>
      have hrun : runCacheOps (CacheOp.start :: rest) cs = runCacheOps rest (startCache cs) :=
        rfl
      have href : (startCache cs).cacheReference_ = cs.cacheReference_ + 1 := by
        unfold startCache
        by_cases hw : cs.cacheWidths_.isSome <;> simp [hw]
      have hsome : (startCache cs).cacheWidths_.isSome = true := by
        unfold startCache
        by_cases hw : cs.cacheWidths_.isSome <;> simp [hw]
      have hnest1 : nestedFrom (startCache cs).cacheReference_ rest = true := by
        rw [href]; exact hnest
      rw [hrun]
      refine ih (startCache cs) ?_ ?_ hnest1
      · rw [href]; omega
      · rw [href, hsome]
        constructor
        · intro _; omega
        · intro _; rfl
    | stop =>
      have hrun : runCacheOps (CacheOp.stop :: rest) cs = runCacheOps rest (stopCache cs) :=
        rfl
      rw [show nestedFrom cs.cacheReference_ (CacheOp.stop :: rest) =
            (decide (0 < cs.cacheReference_) && nestedFrom (cs.cacheReference_ - 1) rest)
          from rfl, Bool.and_eq_true, decide_eq_true_eq] at hnest
      obtain ⟨hpos, hnest1⟩ := hnest
      have href : (stopCache cs).cacheReference_ = cs.cacheReference_ - 1 := by
        unfold stopCache
        by_cases hz : cs.cacheReference_ - 1 = 0 <;> simp [hz]
      have hwids : (stopCache cs).cacheWidths_ =
          (if cs.cacheReference_ - 1 = 0 then none else cs.cacheWidths_) := by
        unfold stopCache
        by_cases hz : cs.cacheReference_ - 1 = 0 <;> simp [hz]
      have hwid : (stopCache cs).cacheWidths_.isSome = true ↔
          0 < (stopCache cs).cacheReference_ := by
        rw [hwids, href]
        by_cases hz : cs.cacheReference_ - 1 = 0
        · rw [if_pos hz, hz]; decide
        · rw [if_neg hz, hiff]; omega
      rw [hrun]
      exact ih (stopCache cs) (by rw [href]; omega) hwid (by rw [href]; exact hnest1)

/-- C7: from the initial module state, under a balanced and strictly
nested sequence of `startCache` and `stopCache` calls, the width cache
is allocated exactly while the reference count is positive; in
particular start, start, stop leaves it allocated and a further stop
frees it (see the witness). -/
theorem claim_C7_cache_refcount (ops : List CacheOp) (h : nestedFrom 0 ops = true) :
    ((runCacheOps ops initCacheState).cacheWidths_.isSome = true ↔
      0 < (runCacheOps ops initCacheState).cacheReference_) :=
  runCacheOps_inv ops initCacheState (by decide) (by decide) h

theorem claim_C7_witness :
    nestedFrom 0 [CacheOp.start, .start, .stop] = true ∧
    (runCacheOps [CacheOp.start, .start, .stop] initCacheState).cacheWidths_.isSome = true ∧
    nestedFrom 0 [CacheOp.start, .start, .stop, .stop] = true ∧
    (runCacheOps [CacheOp.start, .start, .stop, .stop]
        initCacheState).cacheWidths_.isSome = false := by
  refine ⟨by decide, ?_, by decide, ?_⟩
  · exact (claim_C7_cache_refcount [CacheOp.start, .start, .stop] (by decide)).mpr (by decide)
  · cases hb : (runCacheOps [CacheOp.start, .start, .stop, .stop]
        initCacheState).cacheWidths_.isSome with
    | false => rfl
    | true =>
      have hpos := (claim_C7_cache_refcount [CacheOp.start, .start, .stop, .stop]
        (by decide)).mp hb
      rw [show (runCacheOps [CacheOp.start, .start, .stop, .stop]
        initCacheState).cacheReference_ = 0 from by decide] at hpos
      exact absurd hpos (by decide)

/-- C1: for a non-null value `x` that differs from the current value
under loose equality, `setValue x` stores the string coercion of `x`, so
`getValue` afterwards returns it and that result is loosely equal to `x`
(and literally `x` whenever `x` is a string, since coercion is the
identity there); for `x` loosely equal to the current value, `setValue x`
is a strict no-op: the field is unchanged and no action at all (no event,
no text store, no render) is performed. -/
theorem claim_C1_setValue_getValue (f : Field) (eventsEnabled : Bool) (x : JSVal)
    (hx : x ≠ .null) :
    (jsLooseEq (.str f.getValue) x = false →
      (Field.setValue f eventsEnabled x).1.getValue = jsToString x ∧
      jsLooseEq (.str (Field.setValue f eventsEnabled x).1.getValue) x = true) ∧
    (jsLooseEq (.str f.getValue) x = true →
      Field.setValue f eventsEnabled x = (f, [])) := by
  constructor
  · intro h
    have hne : jsToString x ≠ f.text_ := jsToString_ne_of_not_jsLooseEq x f.text_ hx h
    have hget : (Field.setValue f eventsEnabled x).1.getValue = jsToString x := by
      rw [setValue_not_null f eventsEnabled x hx, if_neg (by simp [h])]
      exact (setText_updates f x hx hne).2
    exact ⟨hget, by rw [hget]; exact jsLooseEq_str_jsToString x hx⟩
  · intro h
    rw [setValue_not_null f eventsEnabled x hx, if_pos h]

def wC1Field : Field := { text_ := "1" }

theorem claim_C1_witness :
    (JSVal.num 0 ≠ .null) ∧ jsLooseEq (.str wC1Field.getValue) (.num 0) = false ∧
    (Field.setValue wC1Field true (.num 0)).1.getValue = jsToString (.num 0) ∧
    jsLooseEq (.str (Field.setValue wC1Field true (.num 0)).1.getValue) (.num 0) = true ∧
    jsLooseEq (.str wC1Field.getValue) (.str "1") = true ∧
    Field.setValue wC1Field true (.str "1") = (wC1Field, []) := by
  refine ⟨by decide, by decide, ?_, ?_, by decide, ?_⟩
  · exact ((claim_C1_setValue_getValue wC1Field true (.num 0) (by decide)).1 (by decide)).1
  · exact ((claim_C1_setValue_getValue wC1Field true (.num 0) (by decide)).1 (by decide)).2
  · exact (claim_C1_setValue_getValue wC1Field true (.str "1") (by decide)).2 (by decide)

/-- C4: for a non-null `x` loosely different from the current value, when
the global event gate is on and the field is bound, `setValue` performs
exactly one `fireChange` with payload block, "field", field name, old
value, new value, and it precedes the text store in the action sequence
(the stored text at firing time is still the old one, which is also the
recorded `oldValue`); when the gate is off or the field is unbound no
event is fired but the text update still happens. -/
theorem claim_C4_change_event (f : Field) (b : Block) (x : JSVal) (en : Bool)
    (hx : x ≠ .null) (hdiff : jsLooseEq (.str f.getValue) x = false) :
    (f.sourceBlock_ = some b → en = true →
      (Field.setValue f en x).2 =
        Action.fireChange { block := b, element := "field", name := f.name,
                            oldValue := f.getValue, newValue := x } ::
        Action.storeText (jsToString x) ::
        (if b.rendered then [Action.blockRender, Action.bumpNeighbours] else []) ∧
      (Field.setValue f en x).2.filter Action.isFire =
        [Action.fireChange { block := b, element := "field", name := f.name,
                             oldValue := f.getValue, newValue := x }] ∧
      (Field.setValue f en x).1.text_ = jsToString x) ∧
    ((f.sourceBlock_ = none ∨ en = false) →
      (Field.setValue f en x).2.filter Action.isFire = [] ∧
      (Field.setValue f en x).1.text_ = jsToString x) := by
  have hne : jsToString x ≠ f.text_ := jsToString_ne_of_not_jsLooseEq x f.text_ hx hdiff
  have hsv := setValue_not_null f en x hx
  rw [if_neg (by simp [hdiff])] at hsv
  have hst := setText_not_null f x hx
  rw [if_neg hne] at hst
  constructor
  · intro hb hen
    subst hen
    rw [hsv, hst]
    simp only [updateTextNode_sourceBlock, updateTextNode_text, hb]
    cases hr : b.rendered <;> simp [hr, Action.isFire]
  · intro hor
    rw [hsv, hst]
    rcases hor with hb | hen
    · simp only [updateTextNode_sourceBlock, updateTextNode_text, hb]
      simp [Action.isFire]
    · subst hen
      rcases hsb2 : f.sourceBlock_ with _ | b2
      · simp only [updateTextNode_sourceBlock, updateTextNode_text, hsb2]
        simp [Action.isFire]
      · simp only [updateTextNode_sourceBlock, updateTextNode_text, hsb2]
        cases hr : b2.rendered <;> simp [hr, Action.isFire]

def wC4Block : Block := { rendered := true }

def wC4Field : Field := { name := some "NUM", text_ := "1", sourceBlock_ := some wC4Block }

theorem claim_C4_witness :
    (JSVal.str "2" ≠ .null) ∧
    jsLooseEq (.str wC4Field.getValue) (.str "2") = false ∧
    wC4Field.sourceBlock_ = some wC4Block ∧
    (Field.setValue wC4Field true (.str "2")).2 =
      Action.fireChange { block := wC4Block, element := "field", name := some "NUM",
                          oldValue := "1", newValue := .str "2" } ::
      Action.storeText "2" ::
      [Action.blockRender, Action.bumpNeighbours] ∧
    (Field.setValue wC4Field true (.str "2")).1.text_ = "2" ∧
    (Field.setValue wC4Field false (.str "2")).2.filter Action.isFire = [] ∧
    (Field.setValue wC4Field false (.str "2")).1.text_ = "2" := by
  have h1 := (claim_C4_change_event wC4Field wC4Block (.str "2") true (by decide)
    (by decide)).1 rfl rfl
  have h2 := (claim_C4_change_event wC4Field wC4Block (.str "2") false (by decide)
    (by decide)).2 (Or.inr rfl)
  exact ⟨by decide, by decide, rfl, h1.1, h1.2.2, h2.1, h2.2⟩

/-- The right-to-left mark appended to non-empty display text on RTL
blocks, and nothing otherwise. -/
def rtlSuffix (f : Field) : List Char := if f.rtl then [RLM] else []

theorem substChar_ELLIPSIS : substChar ELLIPSIS = ELLIPSIS := by decide

theorem string_eq_empty_iff (s : String) : s = "" ↔ s.data = [] := String.ext_iff

/-- C3 (amended): on a rendered field, `updateTextNode_` leaves `getText`
untouched and displays: for empty stored text a single non-breaking
space; for non-empty text within `maxDisplayLength` the text with every
whitespace character replaced by a non-breaking space; for longer text
the whitespace-substituted first `maxDisplayLength - 2` characters
followed by the ellipsis; the truncated style class is set exactly in
the long case; on RTL blocks an RTL mark is appended to non-empty
display text. -/
theorem claim_C3_display_text (f : Field) (te : TextElement)
    (hte : f.textElement_ = some te) :
    (Field.updateTextNode_ f).getText = f.getText ∧
    (Field.updateTextNode_ f).textElement_.map TextElement.className =
      some (if f.maxDisplayLength < f.text_.length
        then "blocklyText blocklyTextTruncated" else "blocklyText") ∧
    (f.text_ = "" →
      (Field.updateTextNode_ f).textElement_.map TextElement.content =
        some (String.mk [NBSP])) ∧
    (f.text_ ≠ "" → f.text_.length ≤ f.maxDisplayLength →
      (Field.updateTextNode_ f).textElement_.map TextElement.content =
        some (String.mk (f.text_.data.map substChar ++ rtlSuffix f))) ∧
    (f.maxDisplayLength < f.text_.length →
      (Field.updateTextNode_ f).textElement_.map TextElement.content =
        some (String.mk ((f.text_.data.take (f.maxDisplayLength - 2)).map substChar
          ++ [ELLIPSIS] ++ rtlSuffix f))) := by
  refine ⟨updateTextNode_text f, ?_, ?_, ?_, ?_⟩
  · simp [Field.updateTextNode_, hte]
  · intro hempty
    have hdata : f.text_.data = [] := (string_eq_empty_iff _).mp hempty
    have hlen0 : f.text_.length = 0 := by simp [String.length, hdata]
    simp [Field.updateTextNode_, hte, hdata, hlen0]
  · intro hne hlen
    have hdata : f.text_.data ≠ [] := fun h => hne ((string_eq_empty_iff _).mpr h)
    have hnlt : ¬ f.maxDisplayLength < f.text_.length := by omega
    by_cases hrtl : f.rtl = true <;>
      simp [Field.updateTextNode_, hte, hnlt, hdata, hrtl, rtlSuffix]
  · intro hlen
    have hmap : (f.text_.data.take (f.maxDisplayLength - 2) ++ [ELLIPSIS]).map substChar =
        (f.text_.data.take (f.maxDisplayLength - 2)).map substChar ++ [ELLIPSIS] := by
      rw [List.map_append]
      simp [substChar_ELLIPSIS]
    by_cases hrtl : f.rtl = true <;>
      simp [Field.updateTextNode_, hte, hlen, hmap, hrtl, rtlSuffix]

def wC3Empty : Field :=
  { text_ := "", maxDisplayLength := 50, textElement_ := some {}, sourceBlock_ := some {} }

/-- C3 counterexample: the claim predicts that any stored text of length
at most `maxDisplayLength` is displayed unmodified except for whitespace
substitution; for the empty stored text that prediction is the empty
string, but the code displays a single non-breaking space instead (the
anti-collapse rule of lines 501 to 504 of field.js). -/
theorem claim_C3_counterexample :
    wC3Empty.text_.length ≤ wC3Empty.maxDisplayLength ∧
    (Field.updateTextNode_ wC3Empty).textElement_.map TextElement.content =
      some (String.mk [NBSP]) ∧
    (Field.updateTextNode_ wC3Empty).textElement_.map TextElement.content ≠
      some (substJsWs wC3Empty.text_) := by decide

def wC3Long : Field :=
  { text_ := "hello world", maxDisplayLength := 8, textElement_ := some {},
    sourceBlock_ := some {} }

theorem claim_C3_witness :
    wC3Long.textElement_ = some {} ∧
    (Field.updateTextNode_ wC3Long).getText = wC3Long.getText ∧
    (Field.updateTextNode_ wC3Long).textElement_.map TextElement.className =
      some "blocklyText blocklyTextTruncated" ∧
    (Field.updateTextNode_ wC3Long).textElement_.map TextElement.content =
      some (String.mk ((wC3Long.text_.data.take (wC3Long.maxDisplayLength - 2)).map
        substChar ++ [ELLIPSIS] ++ rtlSuffix wC3Long)) := by
  obtain ⟨hget, hcls, _, _, hlong⟩ := claim_C3_display_text wC3Long {} rfl
  refine ⟨rfl, hget, ?_, hlong (by decide)⟩
  rw [hcls]
  decide


/-! Renderer and visibility lemmas for C8. -/

theorem render_invisible_spec (f : Field) (cs : CacheState) (env : Env)
    (hvis : f.visible_ = false) :
    (Field.render_ f cs env).2 = cs ∧
    (Field.render_ f cs env).1.size_.width = 0 ∧
    (Field.render_ f cs env).1.size_.height = f.size_.height ∧
    (Field.render_ f cs env).1.textElement_ = f.textElement_ ∧
    (Field.render_ f cs env).1.visible_ = f.visible_ ∧
    (Field.render_ f cs env).1.fieldGroup_ = f.fieldGroup_ ∧
    (Field.render_ f cs env).1.EDITABLE = f.EDITABLE ∧
    (Field.render_ f cs env).1.positionArrow = f.positionArrow ∧
    (Field.render_ f cs env).1.box_.isSome = f.box_.isSome := by
  rcases hte2 : f.textElement_ with _ | te2 <;> rcases hbox : f.box_ with _ | bx <;>
    simp [Field.render_, hvis, hte2, hbox]

theorem render_visible_width (f : Field) (te : TextElement) (cs : CacheState) (env : Env)
    (hte : f.textElement_ = some te) (hvis : f.visible_ = true) :
    (Field.render_ f cs env).1.size_.width =
      (computeWidth te.content te.className f.EDITABLE f.positionArrow f.box_.isSome
        cs env).1 := by
  rcases hbox : f.box_ with _ | bx <;> simp [Field.render_, hvis, hte, hbox]

theorem render_visible_width_congr (f : Field) (te : TextElement) (cs : CacheState)
    (env : Env) (hte : f.textElement_ = some te) (hvis : f.visible_ = true)
    (ed : Bool) (pa : Option (ℚ → ℚ)) (hb : Bool)
    (hed : f.EDITABLE = ed) (hpa : f.positionArrow = pa) (hhb : f.box_.isSome = hb) :
    (Field.render_ f cs env).1.size_.width =
      (computeWidth te.content te.className ed pa hb cs env).1 := by
  subst hed hpa hhb
  exact render_visible_width f te cs env hte hvis

theorem setVisible_spec2 (f : Field) (v : Bool) (cs : CacheState) (env : Env)
    (hneq : ¬ f.visible_ = v) (hsome : f.fieldGroup_.isSome = true) :
    Field.setVisible f v cs env = Field.render_ { f with visible_ := v, fieldGroup_ := Option.map (fun g0 => { g0 with display := if v then "block" else "none" }) f.fieldGroup_ } cs env := by
  unfold Field.setVisible
  rw [if_neg hneq]
  rcases hfg2 : f.fieldGroup_ with _ | g0
  · rw [hfg2] at hsome; simp at hsome
  · simp [hfg2]

/-- The observable run of the hidden-field scenario: hide an initialized
field, read its size, show it again, read its size.  Returns the width
`getSize` reports after hiding, the stored width right after re-showing
(before any further `getSize`), and the width the next `getSize`
returns. -/
def visibilityScenario (f : Field) (cs : CacheState) (env : Env) : ℚ × ℚ × ℚ :=
  let p1 := Field.setVisible f false cs env
  let q1 := Field.getSize p1.1 p1.2 env
  let p2 := Field.setVisible q1.2.1 true q1.2.2 env
  let q2 := Field.getSize p2.1 p2.2 env
  (q1.1.width, p2.1.size_.width, q2.1.width)

/-- C8 (amended): for an initialized visible field whose computed width
is nonzero, hiding it forces `getSize().width = 0`; re-showing it
recomputes the width immediately inside `setVisible` (the stored width
already equals the computed width before any `getSize` call), and the
next `getSize` returns that same computed width. -/
theorem claim_C8_visibility_width (f : Field) (g : GroupEl) (te : TextElement)
    (cs : CacheState) (env : Env) (hfg : f.fieldGroup_ = some g)
    (hte : f.textElement_ = some te) (hvis : f.visible_ = true)
    (hW : (computeWidth te.content te.className f.EDITABLE f.positionArrow f.box_.isSome cs env).1 ≠ 0) :
    (Field.render_ f cs env).1.size_.width =
      (computeWidth te.content te.className f.EDITABLE f.positionArrow f.box_.isSome cs env).1 ∧
    visibilityScenario f cs env =
      (0, (computeWidth te.content te.className f.EDITABLE f.positionArrow f.box_.isSome cs env).1,
       (computeWidth te.content te.className f.EDITABLE f.positionArrow f.box_.isSome cs env).1) := by
  have hneq1 : ¬ f.visible_ = false := by simp [hvis]
  have hfgs : f.fieldGroup_.isSome = true := by rw [hfg]; rfl
  refine ⟨render_visible_width f te cs env hte hvis, ?_⟩
  simp only [visibilityScenario]
  rw [setVisible_spec2 f false cs env hneq1 hfgs]
  set F2 : Field := { f with visible_ := false, fieldGroup_ := Option.map (fun g0 => { g0 with display := if false then "block" else "none" }) f.fieldGroup_ } with hF2
  obtain ⟨hXcs, hXw, _, hXte, hXvis, hXfg, hXed, hXpa, hXbox⟩ :=
    render_invisible_spec F2 cs env (by rw [hF2])
  rw [hXcs]
  set X : Field := (Field.render_ F2 cs env).1 with hXdef
  simp only [Field.getSize]
  rw [if_pos hXw]
  obtain ⟨hYcs, hYw, _, hYte, hYvis, hYfg, hYed, hYpa, hYbox⟩ :=
    render_invisible_spec X cs env (by rw [hXvis, hF2])
  dsimp only
  rw [hYcs]
  set Y : Field := (Field.render_ X cs env).1 with hYdef
  have hneq2 : ¬ Y.visible_ = true := by rw [hYvis, hXvis, hF2]; simp
  have hfgs2 : Y.fieldGroup_.isSome = true := by
    rw [hYfg, hXfg, hF2]
    simp [hfg]
  rw [setVisible_spec2 Y true cs env hneq2 hfgs2]
  set F4 : Field := { Y with visible_ := true, fieldGroup_ := Option.map (fun g0 => { g0 with display := if true then "block" else "none" }) Y.fieldGroup_ } with hF4
  have hF4te : F4.textElement_ = some te := hYte.trans (hXte.trans hte)
  have hF4vis : F4.visible_ = true := by rw [hF4]
  have hF4ed : F4.EDITABLE = f.EDITABLE := hYed.trans hXed
  have hF4pa : F4.positionArrow = f.positionArrow := hYpa.trans hXpa
  have hF4box : F4.box_.isSome = f.box_.isSome := hYbox.trans hXbox
  have hw4 := render_visible_width_congr F4 te cs env hF4te hF4vis f.EDITABLE
    f.positionArrow f.box_.isSome hF4ed hF4pa hF4box
  rw [if_neg (by rw [hw4]; exact hW)]
  dsimp only
  rw [hYw, hw4]

def cxEnv : Env := { measure := fun _ _ => some 10 }

def cxField : Field :=
  { sourceBlock_ := some {}, visible_ := true, EDITABLE := false,
    size_ := { width := 10, height := 0 }, fieldGroup_ := some {}, textElement_ := some {} }

/-- C8 counterexample: the claim says visibility restoration happens on
the next `getSize()` access through the lazy recomputation that the
width-0 stale sentinel triggers; in the code `setVisible(true)` calls
`render_` directly, so immediately after re-showing (before any
`getSize` call) the stored width already equals the computed nonzero
width: no width-0 sentinel is left for `getSize` to act on. -/
theorem claim_C8_counterexample :
    ((Field.setVisible cxField false initCacheState cxEnv).1).size_.width = 0 ∧
    ((Field.setVisible (Field.setVisible cxField false initCacheState cxEnv).1 true (Field.setVisible cxField false initCacheState cxEnv).2 cxEnv).1).size_.width = 10 ∧
    (10 : ℚ) ≠ 0 :=
  ⟨rfl, rfl, by norm_num⟩

theorem claim_C8_witness :
    cxField.fieldGroup_ = some {} ∧ cxField.textElement_ = some {} ∧
    cxField.visible_ = true ∧
    (computeWidth "" "blocklyText" false none false initCacheState cxEnv).1 = 10 ∧
    visibilityScenario cxField initCacheState cxEnv = (0, 10, 10) := by
  have h := claim_C8_visibility_width cxField {} {} initCacheState cxEnv rfl rfl rfl
    (by show ¬ (10 : ℚ) = 0; norm_num)
  refine ⟨rfl, rfl, rfl, rfl, ?_⟩
  exact h.2

end Blockly
